import Mathlib

/-!
Verification of `src/utils/extract_chars.py` (ZX Spectrum character-set
extractor).  The Python program reads a ROM file, checks its size, slices
the 768-byte character window starting at offset 15616, and writes a C
header file with one formatted array line per character record.

The shallow embedding below mirrors the source line by line:
pure byte/string formatting becomes Lean functions on `List (Fin 256)` and
`String`; the file system is abstracted by `RomFile` (the possible outcomes
of opening and reading the source path) and `DestFile` (the possible
outcomes of opening the destination path for writing); Python exceptions
become an `Except PyExc` body wrapped by a handler, exactly matching the
try/except structure of the source.
-/

namespace Spettrum

/-- `CHAR_START = 15616` from the source (offset 0x3D00). -/
def CHAR_START : Nat := 15616

/-- `CHAR_SIZE = 8` from the source (8 bytes per character). -/
def CHAR_SIZE : Nat := 8

/-- `NUM_CHARS = 96` from the source (ASCII 32-127). -/
def NUM_CHARS : Nat := 96

/-- A byte as produced by iterating a Python `bytes` object: an integer in 0..255. -/
abbrev Byte := Fin 256

/-- Uppercase hexadecimal digit for a value below 16, as produced by Python `X` formatting. -/
def hexDigit (n : Nat) : Char :=
  if n < 10 then Char.ofNat (48 + n) else Char.ofNat (55 + n)

/-- Python `f'0x\x7bb:02X\x7d'` for a byte `b` (always in 0..255, so always exactly two digits). -/
def hex02 (b : Byte) : String :=
  String.mk ['0', 'x', hexDigit (b.val / 16), hexDigit (b.val % 16)]

/-- Python `f'\x7bn:3d\x7d'` for a natural number: decimal digits right-aligned to width 3. -/
def fmt3d (n : Nat) : String :=
  let s := Nat.repr n
  if s.length < 3 then String.mk (List.replicate (3 - s.length) ' ') ++ s else s

/-- Line 26 of the source: `charset = rom_data[CHAR_START:CHAR_START + (NUM_CHARS * CHAR_SIZE)]`.
Python slicing clamps at the list length, as `drop`/`take` do. -/
def charsetOf (rom_data : List Byte) : List Byte :=
  (rom_data.drop CHAR_START).take (NUM_CHARS * CHAR_SIZE)

/-- Lines 41-53 of the source: the trailing comment of the record at `char_idx`.
`ascii_code = char_idx + 32`; `char_name = chr(ascii_code) if 33 <= ascii_code <= 126 else ' '`. -/
def commentOf (char_idx : Nat) : String :=
  let ascii_code := char_idx + 32
  let char_name := if 33 ≤ ascii_code ∧ ascii_code ≤ 126 then Char.ofNat ascii_code else ' '
  if ascii_code = 32 then
    "  \x2f* ASCII " ++ fmt3d ascii_code ++ " (SPACE) *\x2f"
  else if 33 ≤ ascii_code ∧ ascii_code ≤ 126 then
    "  \x2f* ASCII " ++ fmt3d ascii_code ++ " (\x27" ++ String.singleton char_name ++ "\x27) *\x2f"
  else
    "  \x2f* ASCII " ++ fmt3d ascii_code ++ " *\x2f"

/-- Lines 37-57 of the source: one iteration of the record loop, producing the line
`    \x7b<byte_str>\x7d<comma><comment>` (without the trailing newline).
`offset = char_idx * CHAR_SIZE`; `char_bytes = charset[offset:offset + CHAR_SIZE]`;
`byte_str = ', '.join(...)`; `comma = ',' if char_idx < NUM_CHARS - 1 else ''`. -/
def recordLine (charset : List Byte) (char_idx : Nat) : String :=
  let offset := char_idx * CHAR_SIZE
  let char_bytes := (charset.drop offset).take CHAR_SIZE
  let byte_str := String.intercalate ", " (char_bytes.map hex02)
  let comma := if char_idx < NUM_CHARS - 1 then "," else ""
  "    \x7b" ++ byte_str ++ "\x7d" ++ comma ++ commentOf char_idx

/-- Lines 30-34 of the source: the header comment, one list entry per line of the file.
The write `f.write(" */\n\n")` also produces the empty line appended in `documentLines`. -/
def headerCommentLines : List String :=
  ["\x2f*",
   " * ZX Spectrum Character Set",
   " * Extracted from ROM at address 0x3D00",
   " * 96 characters (ASCII 32-127), 8 bytes each",
   " *\x2f"]

/-- Line 35 of the source: the array declaration opening line. -/
def arrayOpenLine : String :=
  "const unsigned char zx_spectrum_charset[96][8] = \x7b"

/-- The destination file contents, as the list of newline-terminated lines written by
lines 30-59 of the source: header comment, blank line, array opening, 96 record
lines, closing brace. -/
def documentLines (charset : List Byte) : List String :=
  headerCommentLines ++ [""] ++ [arrayOpenLine]
    ++ (List.range NUM_CHARS).map (recordLine charset) ++ ["\x7d;"]

/-- Outcome of `open(rom_path, 'rb')` followed by `f.read()`:
the file is missing (`FileNotFoundError`), reading raises some other `Exception`
with message `msg`, or the whole contents are returned as bytes. -/
inductive RomFile where
  | missing
  | readError (msg : String)
  | present (rom_data : List Byte)

/-- Outcome of `open(output_path, 'w')`: the open succeeds (the writes then all
succeed), or it raises an `Exception` with message `msg` and the destination is
left untouched. -/
inductive DestFile where
  | writable
  | openError (msg : String)

/-- Observable result of one call to `extract_charset`: the messages printed,
the destination contents (`none` when the destination was never opened), and the
Python return value (`none` models Python `None`). -/
structure ExtractOutcome where
  printed : List String
  written : Option (List String)
  retval : Option Unit
deriving DecidableEq

/-- A Python exception escaping the body of `extract_charset`:
`FileNotFoundError`, or any other `Exception` carrying message `msg`. -/
inductive PyExc where
  | fileNotFound
  | otherExc (msg : String)

/-- Line 22 of the source: the too-small error message. -/
def tooSmallMsg : String :=
  "Error: ROM file too small. Expected at least "
    ++ Nat.repr (CHAR_START + NUM_CHARS * CHAR_SIZE) ++ " bytes."

/-- Line 61 of the source: the success message. -/
def successMsg (output_path : String) : String :=
  "Successfully extracted " ++ Nat.repr NUM_CHARS ++ " characters to " ++ output_path

/-- Line 64 of the source: the `FileNotFoundError` handler message. -/
def notFoundMsg (rom_path : String) : String :=
  "Error: ROM file \x27" ++ rom_path ++ "\x27 not found."

/-- Line 66 of the source: the generic exception handler message. -/
def otherErrMsg (msg : String) : String :=
  "Error: " ++ msg

/-- Lines 17-61 of the source: the body of the `try` block.  Read the ROM
(possibly raising), check the size (printing and returning `None` when too
small, before the destination is ever opened), open the destination (possibly
raising), and write the document. -/
def extract_charset_body (rom : RomFile) (dest : DestFile) (output_path : String) :
    Except PyExc ExtractOutcome :=
  match rom with
  | .missing => .error .fileNotFound
  | .readError m => .error (.otherExc m)
  | .present rom_data =>
    if rom_data.length < CHAR_START + NUM_CHARS * CHAR_SIZE then
      .ok ⟨[tooSmallMsg], none, none⟩
    else
      match dest with
      | .openError m => .error (.otherExc m)
      | .writable =>
        .ok ⟨[successMsg output_path], some (documentLines (charsetOf rom_data)), none⟩

/-- Lines 63-66 of the source: the two `except` clauses.  Each prints one
message and falls off the end of the function, returning `None` with the
destination untouched. -/
def handleExc (rom_path : String) : PyExc → ExtractOutcome
  | .fileNotFound => ⟨[notFoundMsg rom_path], none, none⟩
  | .otherExc m => ⟨[otherErrMsg m], none, none⟩

/-- Lines 9-66 of the source: `extract_charset(rom_path, output_path)` with the
`try`/`except` wrapping of the body.  Total: every exception is handled. -/
def extract_charset (rom_path output_path : String) (rom : RomFile) (dest : DestFile) :
    ExtractOutcome :=
  match extract_charset_body rom dest output_path with
  | .ok out => out
  | .error e => handleExc rom_path e

/-- What the `__main__` block decides to do: print usage and exit with a code,
or call `extract_charset` on the given paths. -/
inductive MainAction where
  | usageExit (printed : List String) (exitCode : Nat)
  | runExtract (rom_file output_file : String)
deriving DecidableEq

/-- Line 79 of the source: the default output filename. -/
def defaultOutputFile : String := "zx_charset.h"

/-- Lines 72-81 of the source: argument handling of the `__main__` block.
`argv` includes the program name at index 0, as Python `sys.argv` does. -/
def mainEntry (argv : List String) : MainAction :=
  if argv.length < 2 then
    .usageExit
      ["Usage: python extract_zx_charset.py <rom_file> [output_file]",
       "\nExample:",
       "  python extract_zx_charset.py zx48.rom charset.h"]
      1
  else
    .runExtract (argv.getD 1 "")
      (if 2 < argv.length then argv.getD 2 "" else defaultOutputFile)

/-- Formatting of record line `i` as the spec words it: the 8 source bytes at
offsets `15616 + 8*i` through `15616 + 8*i + 7` (taken directly from the ROM,
not through the intermediate `charset` slice), each as `0x` plus two uppercase
hex digits, comma-separated inside braces, then the comma policy and comment. -/
def specRecordLine (rom_data : List Byte) (i : Nat) : String :=
  "    \x7b"
    ++ String.intercalate ", " (((rom_data.drop (15616 + 8 * i)).take 8).map hex02)
    ++ "\x7d" ++ (if i < 95 then "," else "") ++ commentOf i

/-- Slicing the record at `i` out of the `charset` slice equals slicing the ROM
directly at offset `15616 + 8*i`: composition of the two slices of the source. -/
lemma charset_drop_take (rom_data : List Byte) (i : Nat) (hi : i < 96) :
    ((charsetOf rom_data).drop (i * CHAR_SIZE)).take CHAR_SIZE
      = (rom_data.drop (15616 + 8 * i)).take 8 := by
  simp only [charsetOf, CHAR_START, CHAR_SIZE, NUM_CHARS]
  rw [List.drop_take, List.take_take, List.drop_drop]
  have h1 : 8 ⊓ (96 * 8 - i * 8) = 8 := by
    omega
  have h2 : 15616 + i * 8 = 15616 + 8 * i := by omega
  rw [h1, h2]

/-- C1: for every source file of at least 16384 bytes, the output document
contains exactly 96 array lines, and the i-th array line reproduces, in order,
the 8 source bytes at offsets `15616 + 8*i` through `15616 + 8*i + 7`, each
formatted as a two-digit uppercase hexadecimal value prefixed `0x`,
comma-separated inside braces (`specRecordLine` spells out that format). -/
theorem extract_record_lines_reproduce_window (rom_path output_path : String)
    (rom_data : List Byte) (hlen : 16384 ≤ rom_data.length) :
    ∃ lines : List String,
      (extract_charset rom_path output_path (.present rom_data) .writable).written
        = some (headerCommentLines ++ [""] ++ [arrayOpenLine] ++ lines ++ ["\x7d;"]) ∧
      lines.length = 96 ∧
      ∀ i : Nat, i < 96 → lines[i]? = some (specRecordLine rom_data i) := by
  refine ⟨(List.range NUM_CHARS).map (recordLine (charsetOf rom_data)), ?_, ?_, ?_⟩
  · have hnot : ¬ rom_data.length < CHAR_START + NUM_CHARS * CHAR_SIZE := by
      unfold CHAR_START NUM_CHARS CHAR_SIZE; omega
    simp [extract_charset, extract_charset_body, hnot, documentLines]
  · simp [NUM_CHARS]
  · intro i hi
    have hi' : i < NUM_CHARS := by unfold NUM_CHARS; omega
    rw [List.getElem?_map, List.getElem?_range hi']
    simp only [Option.map_some']
    simp only [recordLine, specRecordLine, charset_drop_take rom_data i hi, NUM_CHARS]

/-- Witness for C1 at the all-zero ROM of exactly 16384 bytes. -/
theorem extract_record_lines_reproduce_window_witness :
    ∃ lines : List String,
      (extract_charset "zx48.rom" "charset.h"
          (.present (List.replicate 16384 (0 : Byte))) .writable).written
        = some (headerCommentLines ++ [""] ++ [arrayOpenLine] ++ lines ++ ["\x7d;"]) ∧
      lines.length = 96 ∧
      ∀ i : Nat, i < 96 →
        lines[i]? = some (specRecordLine (List.replicate 16384 (0 : Byte)) i) :=
  extract_record_lines_reproduce_window "zx48.rom" "charset.h"
    (List.replicate 16384 (0 : Byte)) (by rw [List.length_replicate])

/-- C2: a source file of fewer than 16384 bytes makes `extract_charset` print
the size error naming the expected minimum (16384 bytes) and return with the
destination never opened (`written = none`), whatever the destination is. -/
theorem extract_too_small_reports_and_writes_nothing (rom_path output_path : String)
    (rom_data : List Byte) (dest : DestFile) (hlen : rom_data.length < 16384) :
    extract_charset rom_path output_path (.present rom_data) dest
      = ⟨["Error: ROM file too small. Expected at least 16384 bytes."], none, none⟩ := by
  have h : rom_data.length < CHAR_START + NUM_CHARS * CHAR_SIZE := by
    unfold CHAR_START NUM_CHARS CHAR_SIZE; omega
  simp only [extract_charset, extract_charset_body, if_pos h]
  rfl

/-- Witness for C2 at the empty source file. -/
theorem extract_too_small_reports_and_writes_nothing_witness :
    extract_charset "zx48.rom" "charset.h" (.present []) .writable
      = ⟨["Error: ROM file too small. Expected at least 16384 bytes."], none, none⟩ :=
  extract_too_small_reports_and_writes_nothing "zx48.rom" "charset.h" [] .writable (by simp)

/-- C5: a missing source file makes `extract_charset` print the not-found
message naming the source path and return with the destination never opened,
for every destination (valid or not) and every destination path. -/
theorem extract_missing_rom_reports_not_found (rom_path output_path : String)
    (dest : DestFile) :
    extract_charset rom_path output_path .missing dest
      = ⟨["Error: ROM file \x27" ++ rom_path ++ "\x27 not found."], none, none⟩ := rfl

/-- C3: for every source file of at least 16384 bytes, each of the 96 array
lines ends in the comment for its index, and the comments obey: index 0 names
the space character as `SPACE`; indices 1..94 carry both the ASCII code and the
literal printable glyph; index 95 carries the code 127 alone, with no glyph. -/
theorem comments_follow_ascii_ranges (rom_path output_path : String)
    (rom_data : List Byte) (hlen : 16384 ≤ rom_data.length) :
    ∃ lines : List String,
      (extract_charset rom_path output_path (.present rom_data) .writable).written
        = some (headerCommentLines ++ [""] ++ [arrayOpenLine] ++ lines ++ ["\x7d;"]) ∧
      (∀ i : Nat, i < 96 → ∃ pre : String, lines[i]? = some (pre ++ commentOf i)) ∧
      commentOf 0 = "  \x2f* ASCII  32 (SPACE) *\x2f" ∧
      (∀ i : Nat, 1 ≤ i → i ≤ 94 →
        commentOf i = "  \x2f* ASCII " ++ fmt3d (i + 32) ++ " (\x27"
          ++ String.singleton (Char.ofNat (i + 32)) ++ "\x27) *\x2f") ∧
      commentOf 95 = "  \x2f* ASCII 127 *\x2f" := by
  refine ⟨(List.range NUM_CHARS).map (recordLine (charsetOf rom_data)), ?_, ?_, ?_, ?_, ?_⟩
  · have hnot : ¬ rom_data.length < CHAR_START + NUM_CHARS * CHAR_SIZE := by
      simp only [CHAR_START, NUM_CHARS, CHAR_SIZE]; omega
    simp [extract_charset, extract_charset_body, hnot, documentLines]
  · intro i hi
    have hi' : i < NUM_CHARS := by simp only [NUM_CHARS]; omega
    rw [List.getElem?_map, List.getElem?_range hi']
    exact ⟨"    \x7b"
      ++ String.intercalate ", "
        ((((charsetOf rom_data).drop (i * CHAR_SIZE)).take CHAR_SIZE).map hex02)
      ++ "\x7d" ++ (if i < NUM_CHARS - 1 then "," else ""), rfl⟩
  · rfl
  · intro i h1 h2
    have hne : ¬ (i + 32 = 32) := by omega
    have hpr : 33 ≤ i + 32 ∧ i + 32 ≤ 126 := by omega
    simp only [commentOf, if_neg hne, if_pos hpr]
  · rfl

/-- Witness for C3 at the all-zero ROM of exactly 16384 bytes. -/
theorem comments_follow_ascii_ranges_witness :
    ∃ lines : List String,
      (extract_charset "zx48.rom" "charset.h"
          (.present (List.replicate 16384 (0 : Byte))) .writable).written
        = some (headerCommentLines ++ [""] ++ [arrayOpenLine] ++ lines ++ ["\x7d;"]) ∧
      (∀ i : Nat, i < 96 → ∃ pre : String, lines[i]? = some (pre ++ commentOf i)) ∧
      commentOf 0 = "  \x2f* ASCII  32 (SPACE) *\x2f" ∧
      (∀ i : Nat, 1 ≤ i → i ≤ 94 →
        commentOf i = "  \x2f* ASCII " ++ fmt3d (i + 32) ++ " (\x27"
          ++ String.singleton (Char.ofNat (i + 32)) ++ "\x27) *\x2f") ∧
      commentOf 95 = "  \x2f* ASCII 127 *\x2f" :=
  comments_follow_ascii_ranges "zx48.rom" "charset.h"
    (List.replicate 16384 (0 : Byte)) (by rw [List.length_replicate])

/-- C4: in every output document, the 95 non-final array lines carry a comma
directly after the closing brace of the byte list, and the final (96th) array
line carries no comma there: its comment follows the brace directly. -/
theorem trailing_comma_policy (rom_path output_path : String)
    (rom_data : List Byte) (hlen : 16384 ≤ rom_data.length) :
    ∃ lines : List String,
      (extract_charset rom_path output_path (.present rom_data) .writable).written
        = some (headerCommentLines ++ [""] ++ [arrayOpenLine] ++ lines ++ ["\x7d;"]) ∧
      lines.length = 96 ∧
      (∀ i : Nat, i < 95 → ∃ bytes : String,
        lines[i]? = some ("    \x7b" ++ bytes ++ "\x7d" ++ "," ++ commentOf i)) ∧
      (∃ bytes : String,
        lines[95]? = some ("    \x7b" ++ bytes ++ "\x7d" ++ commentOf 95)) := by
  refine ⟨(List.range NUM_CHARS).map (recordLine (charsetOf rom_data)), ?_, ?_, ?_, ?_⟩
  · have hnot : ¬ rom_data.length < CHAR_START + NUM_CHARS * CHAR_SIZE := by
      simp only [CHAR_START, NUM_CHARS, CHAR_SIZE]; omega
    simp [extract_charset, extract_charset_body, hnot, documentLines]
  · simp [NUM_CHARS]
  · intro i hi
    have hi' : i < NUM_CHARS := by simp only [NUM_CHARS]; omega
    rw [List.getElem?_map, List.getElem?_range hi']
    refine ⟨String.intercalate ", "
      ((((charsetOf rom_data).drop (i * CHAR_SIZE)).take CHAR_SIZE).map hex02), ?_⟩
    have hc : i < NUM_CHARS - 1 := by simp only [NUM_CHARS]; omega
    simp only [Option.map_some', recordLine, if_pos hc]
  · have h95 : (95 : Nat) < NUM_CHARS := by simp only [NUM_CHARS]; omega
    rw [List.getElem?_map, List.getElem?_range h95]
    refine ⟨String.intercalate ", "
      ((((charsetOf rom_data).drop (95 * CHAR_SIZE)).take CHAR_SIZE).map hex02), ?_⟩
    have hc : ¬ ((95 : Nat) < NUM_CHARS - 1) := by simp only [NUM_CHARS]; omega
    simp only [Option.map_some', recordLine, if_neg hc, String.append_empty]

/-- Witness for C4 at the all-zero ROM of exactly 16384 bytes. -/
theorem trailing_comma_policy_witness :
    ∃ lines : List String,
      (extract_charset "zx48.rom" "charset.h"
          (.present (List.replicate 16384 (0 : Byte))) .writable).written
        = some (headerCommentLines ++ [""] ++ [arrayOpenLine] ++ lines ++ ["\x7d;"]) ∧
      lines.length = 96 ∧
      (∀ i : Nat, i < 95 → ∃ bytes : String,
        lines[i]? = some ("    \x7b" ++ bytes ++ "\x7d" ++ "," ++ commentOf i)) ∧
      (∃ bytes : String,
        lines[95]? = some ("    \x7b" ++ bytes ++ "\x7d" ++ commentOf 95)) :=
  trailing_comma_policy "zx48.rom" "charset.h"
    (List.replicate 16384 (0 : Byte)) (by rw [List.length_replicate])

/-- C6: the destination contents are a function of the character window alone.
Two source files that are both large enough and agree on the byte window
`[15616, 16384)` (that is, on `charsetOf`) produce byte-identical destination
contents, whatever the paths; running the tool twice on the same
source/destination pair is the special case `rom1 = rom2`. -/
theorem output_depends_only_on_window (p1 q1 p2 q2 : String)
    (rom1 rom2 : List Byte)
    (h1 : 16384 ≤ rom1.length) (h2 : 16384 ≤ rom2.length)
    (hw : charsetOf rom1 = charsetOf rom2) :
    (extract_charset p1 q1 (.present rom1) .writable).written
      = (extract_charset p2 q2 (.present rom2) .writable).written := by
  have hn1 : ¬ rom1.length < CHAR_START + NUM_CHARS * CHAR_SIZE := by
    simp only [CHAR_START, NUM_CHARS, CHAR_SIZE]; omega
  have hn2 : ¬ rom2.length < CHAR_START + NUM_CHARS * CHAR_SIZE := by
    simp only [CHAR_START, NUM_CHARS, CHAR_SIZE]; omega
  simp [extract_charset, extract_charset_body, hn1, hn2, hw]

/-- Witness for C6: an all-zero 16384-byte ROM and a longer all-zero 17000-byte
ROM agree on the window and give identical destination contents. -/
theorem output_depends_only_on_window_witness :
    (extract_charset "a.rom" "a.h"
        (.present (List.replicate 16384 (0 : Byte))) .writable).written
      = (extract_charset "b.rom" "b.h"
        (.present (List.replicate 17000 (0 : Byte))) .writable).written :=
  output_depends_only_on_window "a.rom" "a.h" "b.rom" "b.h"
    (List.replicate 16384 (0 : Byte)) (List.replicate 17000 (0 : Byte))
    (by rw [List.length_replicate]) (by rw [List.length_replicate]; norm_num)
    (by simp only [charsetOf, CHAR_START, NUM_CHARS, CHAR_SIZE,
          List.drop_replicate, List.take_replicate]
        norm_num)

/-- On a large-enough ROM with a writable destination, the destination receives
exactly `documentLines` of the charset slice (the success branch of the source). -/
lemma written_of_large (rom_path output_path : String) (rom_data : List Byte)
    (hlen : 16384 ≤ rom_data.length) :
    (extract_charset rom_path output_path (.present rom_data) .writable).written
      = some (documentLines (charsetOf rom_data)) := by
  have hnot : ¬ rom_data.length < CHAR_START + NUM_CHARS * CHAR_SIZE := by
    simp only [CHAR_START, NUM_CHARS, CHAR_SIZE]; omega
  simp [extract_charset, extract_charset_body, hnot]

/-- The document always has 104 lines: 5 comment lines, 1 blank, the opening,
96 records, the closing brace. -/
lemma documentLines_length (charset : List Byte) : (documentLines charset).length = 104 := by
  simp [documentLines, headerCommentLines, NUM_CHARS]

/-- C7 counterexample: the header comment is five lines, not four, and it is
followed by a blank line, so the document has 104 lines rather than the
4 + 1 + 96 + 1 = 102 the claim implies; line index 4 is still part of the
comment and the array opening sits at index 6, not 4. -/
theorem header_four_lines_counterexample :
    ∃ doc : List String,
      (extract_charset "zx48.rom" "charset.h"
          (.present (List.replicate 16384 (0 : Byte))) .writable).written = some doc ∧
      doc.length = 104 ∧
      doc[4]? = some " *\x2f" ∧
      doc[5]? = some "" ∧
      doc[6]? = some arrayOpenLine ∧
      doc.length ≠ 4 + 1 + 96 + 1 := by
  refine ⟨documentLines (charsetOf (List.replicate 16384 (0 : Byte))),
    written_of_large "zx48.rom" "charset.h" (List.replicate 16384 (0 : Byte))
      (by rw [List.length_replicate]),
    documentLines_length _, rfl, rfl, rfl, ?_⟩
  rw [documentLines_length]
  omega

/-- C7 amended: on success the output document is a five-line header comment,
then a blank line, then the array opening line
`const unsigned char zx_spectrum_charset[96][8] = \x7b`, then the 96 record
lines, then the closing `\x7d;`, in that order. -/
theorem document_structure (rom_path output_path : String)
    (rom_data : List Byte) (hlen : 16384 ≤ rom_data.length) :
    ∃ records : List String,
      records.length = 96 ∧
      (extract_charset rom_path output_path (.present rom_data) .writable).written
        = some (headerCommentLines ++ [""] ++ [arrayOpenLine] ++ records ++ ["\x7d;"]) ∧
      headerCommentLines.length = 5 ∧
      arrayOpenLine = "const unsigned char zx_spectrum_charset[96][8] = \x7b" := by
  refine ⟨(List.range NUM_CHARS).map (recordLine (charsetOf rom_data)), ?_, ?_, rfl, rfl⟩
  · simp [NUM_CHARS]
  · have hnot : ¬ rom_data.length < CHAR_START + NUM_CHARS * CHAR_SIZE := by
      simp only [CHAR_START, NUM_CHARS, CHAR_SIZE]; omega
    simp [extract_charset, extract_charset_body, hnot, documentLines]

/-- Witness for the amended C7 at the all-zero ROM of exactly 16384 bytes. -/
theorem document_structure_witness :
    ∃ records : List String,
      records.length = 96 ∧
      (extract_charset "zx48.rom" "charset.h"
          (.present (List.replicate 16384 (0 : Byte))) .writable).written
        = some (headerCommentLines ++ [""] ++ [arrayOpenLine] ++ records ++ ["\x7d;"]) ∧
      headerCommentLines.length = 5 ∧
      arrayOpenLine = "const unsigned char zx_spectrum_charset[96][8] = \x7b" :=
  document_structure "zx48.rom" "charset.h"
    (List.replicate 16384 (0 : Byte)) (by rw [List.length_replicate])

/-- C8: `extract_charset` is total — it returns an outcome on every input —
and always prints exactly one message; every exception the body raises is
turned into the corresponding handler message, and the three error kinds
(not-found, too-small via C2, read/write failure) each yield a single printed
message with the destination untouched. -/
theorem errors_reported_not_raised (rom_path output_path m : String)
    (rom : RomFile) (dest : DestFile) (rom_data : List Byte)
    (hlen : 16384 ≤ rom_data.length) :
    ((extract_charset rom_path output_path rom dest).printed.length = 1) ∧
    (∀ e : PyExc, extract_charset_body rom dest output_path = Except.error e →
      extract_charset rom_path output_path rom dest = handleExc rom_path e) ∧
    (extract_charset rom_path output_path .missing dest
      = ⟨[notFoundMsg rom_path], none, none⟩) ∧
    (extract_charset rom_path output_path (.readError m) dest
      = ⟨[otherErrMsg m], none, none⟩) ∧
    (extract_charset rom_path output_path (.present rom_data) (.openError m)
      = ⟨[otherErrMsg m], none, none⟩) := by
  refine ⟨?_, ?_, rfl, rfl, ?_⟩
  · cases rom with
    | missing => rfl
    | readError m2 => rfl
    | present rd =>
      by_cases h : rd.length < CHAR_START + NUM_CHARS * CHAR_SIZE
      · simp [extract_charset, extract_charset_body, h]
      · cases dest with
        | writable => simp [extract_charset, extract_charset_body, h]
        | openError m2 => simp [extract_charset, extract_charset_body, h, handleExc]
  · intro e he
    simp [extract_charset, he]
  · have h : ¬ rom_data.length < CHAR_START + NUM_CHARS * CHAR_SIZE := by
      simp only [CHAR_START, NUM_CHARS, CHAR_SIZE]; omega
    simp [extract_charset, extract_charset_body, h, handleExc]

/-- Witness for C8 at concrete paths, message and the all-zero 16384-byte ROM. -/
theorem errors_reported_not_raised_witness :
    ((extract_charset "zx48.rom" "charset.h" .missing .writable).printed.length = 1) ∧
    (∀ e : PyExc,
      extract_charset_body .missing .writable "charset.h" = Except.error e →
      extract_charset "zx48.rom" "charset.h" .missing .writable
        = handleExc "zx48.rom" e) ∧
    (extract_charset "zx48.rom" "charset.h" .missing .writable
      = ⟨[notFoundMsg "zx48.rom"], none, none⟩) ∧
    (extract_charset "zx48.rom" "charset.h" (.readError "disk error") .writable
      = ⟨[otherErrMsg "disk error"], none, none⟩) ∧
    (extract_charset "zx48.rom" "charset.h"
        (.present (List.replicate 16384 (0 : Byte))) (.openError "disk error")
      = ⟨[otherErrMsg "disk error"], none, none⟩) :=
  errors_reported_not_raised "zx48.rom" "charset.h" "disk error" .missing .writable
    (List.replicate 16384 (0 : Byte)) (by rw [List.length_replicate])

/-- C9: invoked with no arguments (`argv` holds only the program name), the
`__main__` block prints the usage line and the example and exits with the
non-zero status 1, without calling `extract_charset`. -/
theorem no_arguments_usage_exit (prog : String) :
    ∃ printed : List String, ∃ code : Nat,
      mainEntry [prog] = .usageExit printed code ∧
      printed = ["Usage: python extract_zx_charset.py <rom_file> [output_file]",
                 "\nExample:",
                 "  python extract_zx_charset.py zx48.rom charset.h"] ∧
      code ≠ 0 ∧
      ∀ rom_file output_file : String,
        mainEntry [prog] ≠ .runExtract rom_file output_file := by
  refine ⟨_, 1, rfl, rfl, one_ne_zero, ?_⟩
  intro r o h
  simp only [mainEntry, List.length_cons, List.length_nil] at h
  exact absurd h (by simp)

/-- C10: the Python return value of `extract_charset` is `None` on every path,
so no two invocations can be told apart by it: success and every failure agree. -/
theorem retval_always_none (p1 q1 p2 q2 : String) (rom1 rom2 : RomFile)
    (d1 d2 : DestFile) :
    (extract_charset p1 q1 rom1 d1).retval = none ∧
    (extract_charset p1 q1 rom1 d1).retval = (extract_charset p2 q2 rom2 d2).retval := by
  have key : ∀ (p q : String) (rom : RomFile) (dest : DestFile),
      (extract_charset p q rom dest).retval = none := by
    intro p q rom dest
    cases rom with
    | missing => rfl
    | readError m2 => rfl
    | present rd =>
      by_cases h : rd.length < CHAR_START + NUM_CHARS * CHAR_SIZE
      · simp [extract_charset, extract_charset_body, h]
      · cases dest with
        | writable => simp [extract_charset, extract_charset_body, h]
        | openError m2 => simp [extract_charset, extract_charset_body, h, handleExc]
  exact ⟨key p1 q1 rom1 d1, by rw [key p1 q1 rom1 d1, key p2 q2 rom2 d2]⟩

end Spettrum
